import Mathlib

/-!
Verification of the attendance-analysis engine
(`src/utils/attendanceAnalysis.ts`).

Shallow embedding conventions:
* A timestamp (`Fecha/Hora`, format `yyyy-MM-dd HH:mm:ss`) is modelled at
  minute precision as a calendar-day number plus a minute-of-day.  The day
  numbering is chosen so that `day % 7` equals the JavaScript
  `Date.getDay()` value: day `0` is a Sunday, day `6` a Saturday.
* JavaScript numbers holding minute counts are modelled as `ℤ`; the
  fractional hour credits (`0.5`, `1`) and the accumulated hour totals are
  modelled as `ℚ`.  `date-fns.differenceInMinutes` truncates toward zero,
  which at minute precision is exact subtraction of absolute minutes.
* `Array.prototype.sort` is a stable sort; `List.insertionSort` is also
  stable, so sorting by the absolute-minute key agrees with the source.
* The reference comparison `schedule === preferences.regularSchedule`
  (line 274 of the source) is embedded as an explicit boolean argument
  `schedIsRegular`: `detectSchedule` only ever returns one of the two
  distinct configuration objects, so the reference test is equivalent to
  knowing which of the two was selected.
-/

/-- A parsed `Fecha/Hora` value: calendar day number and minute of day.
`day % 7 = 0` is Sunday and `day % 7 = 6` is Saturday, matching
JavaScript `Date.getDay()`. -/
structure Ts where
  day : ℕ
  minute : ℤ
deriving DecidableEq

/-- Absolute minutes since the epoch, the sort key used by
`new Date(r.FechaHora).getTime()`. -/
def Ts.absMin (t : Ts) : ℤ := (t.day : ℤ) * 1440 + t.minute

/-- date-fns `differenceInMinutes a b` at minute precision. -/
def diffMin (a b : Ts) : ℤ := a.absMin - b.absMin

/-- date-fns `isWeekend`: Saturday or Sunday. -/
def isWeekendDay (d : ℕ) : Prop := d % 7 = 0 ∨ d % 7 = 6

instance (d : ℕ) : Decidable (isWeekendDay d) := by
  unfold isWeekendDay
  exact inferInstance

/-- The `Tipo de registro` column of an `AttendanceRecord`. -/
inductive RegType
  | In
  | Out
  | Break
deriving DecidableEq

/-- One attendance record (`AttendanceRecord` in `types.ts`); only the
fields read by the analysis are retained: `Nombre`, `Fecha/Hora`
(as `fechaHora`), `Tipo de registro` (as `tipo`) and the optional
`Operacion`. -/
structure AttendanceRecord where
  Nombre : String
  fechaHora : Ts
  tipo : RegType
  operacion : Option String
deriving DecidableEq

/-- A `Schedule` from `types.ts`: minute-of-day offsets. -/
structure Schedule where
  startTime : ℤ
  endTime : ℤ
  lunchStart : ℤ
  lunchEnd : ℤ
deriving DecidableEq

/-- An `overtimeThresholds` / `lateThresholds` pair. -/
structure Thresholds where
  fullHour : ℤ
  halfHour : ℤ
deriving DecidableEq

/-- The `PreferencesConfig` from `types.ts`. -/
structure PreferencesConfig where
  regularSchedule : Schedule
  earlySchedule : Schedule
  duplicateThresholdMinutes : ℤ
  lunchDuration : ℤ
  overtimeThresholds : Thresholds
  lateThresholds : Thresholds
  showAllDays : Bool
deriving DecidableEq

/-- `DEFAULT_PREFERENCES` from the source. -/
def DEFAULT_PREFERENCES : PreferencesConfig where
  regularSchedule := { startTime := 8 * 60, endTime := 17 * 60, lunchStart := 12 * 60, lunchEnd := 13 * 60 }
  earlySchedule := { startTime := 7 * 60, endTime := 16 * 60, lunchStart := 12 * 60, lunchEnd := 13 * 60 }
  duplicateThresholdMinutes := 5
  lunchDuration := 60
  overtimeThresholds := { fullHour := 55, halfHour := 25 }
  lateThresholds := { fullHour := 35, halfHour := 5 }
  showAllDays := true

/-- The comparator used by `filterDuplicateRecords`: sort ascending by
timestamp. -/
def sortLe (a b : AttendanceRecord) : Prop :=
  a.fechaHora.absMin ≤ b.fechaHora.absMin

instance : DecidableRel sortLe := fun a b =>
  inferInstanceAs (Decidable (a.fechaHora.absMin ≤ b.fechaHora.absMin))

instance : IsTotal AttendanceRecord sortLe :=
  ⟨fun a b => le_total a.fechaHora.absMin b.fechaHora.absMin⟩

instance : IsTrans AttendanceRecord sortLe :=
  ⟨fun _ _ _ hab hbc => le_trans hab hbc⟩

/-- The stable sort at the head of `filterDuplicateRecords`. -/
def sortRecords (records : List AttendanceRecord) : List AttendanceRecord :=
  records.insertionSort sortLe

/-- The keep condition of `filterDuplicateRecords` (lines 103-107): the
current record survives if it is more than the duplicate window after the
last kept record, or its kind differs, or its operation tag differs. -/
def keepRec (p : PreferencesConfig) (prev cur : AttendanceRecord) : Prop :=
  p.duplicateThresholdMinutes < diffMin cur.fechaHora prev.fechaHora ∨
    cur.tipo ≠ prev.tipo ∨ cur.operacion ≠ prev.operacion

instance (p : PreferencesConfig) (prev cur : AttendanceRecord) :
    Decidable (keepRec p prev cur) := by
  unfold keepRec
  exact inferInstance

/-- One step of the `reduce` in `filterDuplicateRecords`: at index 0 the
record is kept unconditionally, afterwards it is compared against the last
element of the accumulator. -/
def filterStep (p : PreferencesConfig) (acc : List AttendanceRecord)
    (idx : ℕ) (cur : AttendanceRecord) : List AttendanceRecord :=
  if idx = 0 then [cur]
  else
    match acc.getLast? with
    | none => acc
    | some prev => if keepRec p prev cur then acc ++ [cur] else acc

/-- The `reduce` loop of `filterDuplicateRecords`, carrying the
accumulator and the running index. -/
def runFold (p : PreferencesConfig) :
    List AttendanceRecord → ℕ → List AttendanceRecord → List AttendanceRecord
  | acc, _, [] => acc
  | acc, i, c :: rest => runFold p (filterStep p acc i c) (i + 1) rest

/-- `filterDuplicateRecords` (lines 86-113): sort by timestamp, then keep
a record only when it differs enough from the last kept one. -/
def filterDuplicateRecords (records : List AttendanceRecord)
    (p : PreferencesConfig) : List AttendanceRecord :=
  runFold p [] 0 (sortRecords records)

/-- Recursive form of the keep loop: `dedupFrom p last l` processes `l`
keeping each element that satisfies `keepRec` against the last kept
record. -/
def dedupFrom (p : PreferencesConfig) (prev : AttendanceRecord) :
    List AttendanceRecord → List AttendanceRecord
  | [] => []
  | c :: rest =>
      if keepRec p prev c then c :: dedupFrom p c rest else dedupFrom p prev rest

lemma getLast?_append_singleton (l : List AttendanceRecord)
    (a : AttendanceRecord) : (l ++ [a]).getLast? = some a :=
  List.getLast?_concat l

lemma runFold_eq (p : PreferencesConfig) :
    ∀ (rest acc : List AttendanceRecord) (prev : AttendanceRecord) (i : ℕ),
      i ≠ 0 →
      runFold p (acc ++ [prev]) i rest = (acc ++ [prev]) ++ dedupFrom p prev rest := by
  intro rest
  induction rest with
  | nil => intro acc prev i _; simp [runFold, dedupFrom]
  | cons c rest ih =>
      intro acc prev i hi
      rw [runFold, filterStep, if_neg hi, getLast?_append_singleton]
      dsimp only
      by_cases hk : keepRec p prev c
      · rw [if_pos hk]
        have h2 := ih (acc ++ [prev]) c (i + 1) (Nat.succ_ne_zero i)
        rw [List.append_assoc] at h2 ⊢
        rw [h2]
        simp [dedupFrom, hk]
      · rw [if_neg hk]
        rw [ih acc prev (i + 1) (Nat.succ_ne_zero i)]
        simp [dedupFrom, hk]

/-- The filter equals: keep the head of the sorted list, then run the
keep loop from it. -/
lemma filterDuplicateRecords_eq_cons (records : List AttendanceRecord)
    (p : PreferencesConfig) (r : AttendanceRecord) (rs : List AttendanceRecord)
    (h : sortRecords records = r :: rs) :
    filterDuplicateRecords records p = r :: dedupFrom p r rs := by
  rw [filterDuplicateRecords, h, runFold, filterStep, if_pos rfl]
  have := runFold_eq p rs [] r 1 one_ne_zero
  simpa using this

lemma filterDuplicateRecords_eq_nil (records : List AttendanceRecord)
    (p : PreferencesConfig) (h : sortRecords records = []) :
    filterDuplicateRecords records p = [] := by
  rw [filterDuplicateRecords, h, runFold]

lemma dedupFrom_sublist (p : PreferencesConfig) :
    ∀ (l : List AttendanceRecord) (prev : AttendanceRecord),
      List.Sublist (dedupFrom p prev l) l := by
  intro l
  induction l with
  | nil => intro prev; simp [dedupFrom]
  | cons c rest ih =>
      intro prev
      rw [dedupFrom]
      by_cases hk : keepRec p prev c
      · rw [if_pos hk]; exact (ih c).cons₂ c
      · rw [if_neg hk]; exact (ih prev).cons c

lemma filter_sublist_sort (records : List AttendanceRecord)
    (p : PreferencesConfig) :
    List.Sublist (filterDuplicateRecords records p) (sortRecords records) := by
  cases h : sortRecords records with
  | nil =>
      rw [filterDuplicateRecords_eq_nil records p h]
  | cons r rs =>
      rw [filterDuplicateRecords_eq_cons records p r rs h]
      exact (dedupFrom_sublist p rs r).cons₂ r

lemma sorted_sortRecords (records : List AttendanceRecord) :
    List.Sorted sortLe (sortRecords records) :=
  List.sorted_insertionSort sortLe records

lemma sorted_filterDuplicateRecords (records : List AttendanceRecord)
    (p : PreferencesConfig) :
    List.Sorted sortLe (filterDuplicateRecords records p) :=
  List.Pairwise.sublist (filter_sublist_sort records p) (sorted_sortRecords records)

lemma length_filterDuplicateRecords (records : List AttendanceRecord)
    (p : PreferencesConfig) :
    (filterDuplicateRecords records p).length ≤ records.length := by
  have h1 := (filter_sublist_sort records p).length_le
  rwa [sortRecords, List.length_insertionSort] at h1

lemma dedupFrom_idem (p : PreferencesConfig) :
    ∀ (l : List AttendanceRecord) (prev : AttendanceRecord),
      dedupFrom p prev (dedupFrom p prev l) = dedupFrom p prev l := by
  intro l
  induction l with
  | nil => intro prev; simp [dedupFrom]
  | cons c rest ih =>
      intro prev
      rw [dedupFrom]
      by_cases hk : keepRec p prev c
      · rw [if_pos hk, dedupFrom, if_pos hk, ih c]
      · rw [if_neg hk, ih prev]

lemma filterDuplicateRecords_idem (records : List AttendanceRecord)
    (p : PreferencesConfig) :
    filterDuplicateRecords (filterDuplicateRecords records p) p =
      filterDuplicateRecords records p := by
  have hsorted : sortRecords (filterDuplicateRecords records p) =
      filterDuplicateRecords records p :=
    List.Sorted.insertionSort_eq (sorted_filterDuplicateRecords records p)
  cases h : sortRecords records with
  | nil =>
      have h0 := filterDuplicateRecords_eq_nil records p h
      rw [h0] at hsorted ⊢
      exact filterDuplicateRecords_eq_nil [] p hsorted
  | cons r rs =>
      have h0 := filterDuplicateRecords_eq_cons records p r rs h
      rw [h0] at hsorted ⊢
      rw [filterDuplicateRecords_eq_cons _ p r (dedupFrom p r rs) hsorted,
        dedupFrom_idem p rs r]

lemma dedupFrom_of_chain (p : PreferencesConfig) :
    ∀ (l : List AttendanceRecord) (prev : AttendanceRecord),
      List.Chain' (keepRec p) (prev :: l) → dedupFrom p prev l = l := by
  intro l
  induction l with
  | nil => intro prev _; rfl
  | cons c rest ih =>
      intro prev hchain
      rw [List.chain'_cons] at hchain
      rw [dedupFrom, if_pos hchain.1, ih c hchain.2]

/-- A list that is already sorted, every consecutive pair of which
satisfies the keep condition, passes through the duplicate filter
unchanged. -/
lemma filterDuplicateRecords_eq_self (l : List AttendanceRecord)
    (p : PreferencesConfig) (hs : List.Sorted sortLe l)
    (hc : List.Chain' (keepRec p) l) :
    filterDuplicateRecords l p = l := by
  have hsort : sortRecords l = l := List.Sorted.insertionSort_eq hs
  cases l with
  | nil => exact filterDuplicateRecords_eq_nil [] p hsort
  | cons r rs =>
      rw [filterDuplicateRecords_eq_cons _ p r rs hsort,
        dedupFrom_of_chain p rs r hc]

lemma head?_filterDuplicateRecords (records : List AttendanceRecord)
    (p : PreferencesConfig) :
    (filterDuplicateRecords records p).head? = (sortRecords records).head? := by
  cases h : sortRecords records with
  | nil => rw [filterDuplicateRecords_eq_nil records p h]
  | cons r rs => rw [filterDuplicateRecords_eq_cons records p r rs h]; rfl

/-- Minute-of-day values of all punches of kind `t` on non-weekend days,
as collected by `detectSchedule` (lines 52-71). -/
def weekdayTimes (t : RegType) (records : List AttendanceRecord) : List ℤ :=
  (records.filter fun r =>
    decide (¬ isWeekendDay r.fechaHora.day ∧ r.tipo = t)).map
    fun r => r.fechaHora.minute

/-- The arithmetic mean of a list of minute values, as a rational. -/
def meanQ (l : List ℤ) : ℚ := ((l.sum : ℚ)) / (l.length : ℚ)

/-- The mean as computed by JavaScript: `sum / length` is `NaN` when the
list is empty, modelled as `none`. -/
def avgTime (l : List ℤ) : Option ℚ :=
  if l = [] then none else some (meanQ l)

/-- The predicate `Math.abs(avg - a) < Math.abs(avg - b)`; on an
undefined (`NaN`) mean every comparison is false, exactly as in
JavaScript. -/
def closerTo (m : Option ℚ) (a b : ℤ) : Bool :=
  match m with
  | none => false
  | some q => decide (|q - (a : ℚ)| < |q - (b : ℚ)|)

/-- The classification test of `detectSchedule` (lines 79-81). -/
def detectIsEarly (records : List AttendanceRecord)
    (p : PreferencesConfig) : Bool :=
  closerTo (avgTime (weekdayTimes RegType.In records))
      p.earlySchedule.startTime p.regularSchedule.startTime &&
    closerTo (avgTime (weekdayTimes RegType.Out records))
      p.earlySchedule.endTime p.regularSchedule.endTime

/-- `detectSchedule` (lines 50-84). -/
def detectSchedule (records : List AttendanceRecord)
    (p : PreferencesConfig) : Schedule :=
  if detectIsEarly records p then p.earlySchedule else p.regularSchedule

/-- The result of `analyzeDayRecords`. -/
structure DayResult where
  lateMinutes : ℤ
  overtimeHours : ℚ
  lateHours : ℚ
deriving DecidableEq

/-- The tiered lateness credit used three times in `analyzeDayRecords`
(lines 287-291, 299-303, 342-346): `0.5` if
`halfHour < minutesLate <= fullHour`, `1` if `fullHour < minutesLate`,
else `0`. -/
def tierLate (m : ℤ) (p : PreferencesConfig) : ℚ :=
  if p.lateThresholds.halfHour < m ∧ m ≤ p.lateThresholds.fullHour then 1/2
  else if p.lateThresholds.fullHour < m then 1
  else 0

/-- The body of `analyzeDayRecords` after the Saturday short-circuit
(lines 250-350), applied to the already duplicate-filtered list.
`isReg` embeds the reference comparison
`schedule === preferences.regularSchedule`. -/
def evalCore (filtered : List AttendanceRecord) (sched : Schedule)
    (isReg : Bool) (p : PreferencesConfig) : DayResult :=
  match filtered.head?, filtered.getLast? with
  | some first, some last =>
      let arrival := first.fechaHora.minute
      let departure := last.fechaHora.minute
      let bOut := filtered.find? fun r =>
        decide (r.tipo = RegType.Break ∧ r.operacion = some "Out")
      let bIn := filtered.find? fun r =>
        decide (r.tipo = RegType.Break ∧ r.operacion = some "In")
      let breakMin : ℤ :=
        match bOut, bIn with
        | some o, some i => diffMin i.fechaHora o.fechaHora
        | _, _ => 0
      let totalWorkedMinutes := diffMin last.fechaHora first.fechaHora - breakMin
      let arrivalPart : ℤ × ℚ × ℚ :=
        if isReg then
          if arrival < sched.startTime then
            (0, 0, if arrival ≤ 7 * 60 + 5 then 1
              else if arrival ≤ 7 * 60 + 30 then 1/2 else 0)
          else if sched.startTime < arrival then
            (arrival - sched.startTime, tierLate (arrival - sched.startTime) p, 0)
          else (0, 0, 0)
        else
          if sched.startTime < arrival then
            (arrival - sched.startTime, tierLate (arrival - sched.startTime) p, 0)
          else (0, 0, 0)
      let earlyArrivalOvertime := arrivalPart.2.2
      let overtimeHours : ℚ :=
        if 480 ≤ totalWorkedMinutes then
          (if 0 < earlyArrivalOvertime then earlyArrivalOvertime else 0) +
            (if sched.endTime ≤ departure then
              if sched.endTime + p.overtimeThresholds.fullHour ≤ departure then 1
              else if sched.endTime + p.overtimeThresholds.halfHour ≤ departure then 1/2
              else 0
            else 0)
        else 0
      let lunchPart : ℤ × ℚ :=
        match bOut, bIn with
        | some o, some i =>
            let breakDuration := diffMin i.fechaHora o.fechaHora
            if p.lunchDuration < breakDuration then
              (breakDuration - p.lunchDuration,
                tierLate (breakDuration - p.lunchDuration) p)
            else (0, 0)
        | _, _ => (0, 0)
      { lateMinutes := arrivalPart.1 + lunchPart.1
        overtimeHours := overtimeHours
        lateHours := arrivalPart.2.1 + lunchPart.2 }
  | _, _ => { lateMinutes := 0, overtimeHours := 0, lateHours := 0 }

/-- `analyzeDayRecords` (lines 229-351): filter duplicates, short-circuit
to all zeros when the first filtered punch falls on a Saturday, otherwise
run the day evaluation. -/
def analyzeDayRecords (records : List AttendanceRecord) (sched : Schedule)
    (schedIsRegular : Bool) (p : PreferencesConfig) : DayResult :=
  let filtered := filterDuplicateRecords records p
  match filtered.head? with
  | some first =>
      if first.fechaHora.day % 7 = 6 then
        { lateMinutes := 0, overtimeHours := 0, lateHours := 0 }
      else evalCore filtered sched schedIsRegular p
  | none => evalCore filtered sched schedIsRegular p

/-- Insert an element into an ordered association list of groups,
appending to an existing group or adding a new group at the end.  This is
how a JavaScript object used with `reduce` grouping behaves: first-seen
key order, insertion order within a group. -/
def groupUpdate {κ : Type} [DecidableEq κ] (k : κ) (a : AttendanceRecord) :
    List (κ × List AttendanceRecord) → List (κ × List AttendanceRecord)
  | [] => [(k, [a])]
  | (k0, l) :: rest =>
      if k = k0 then (k0, l ++ [a]) :: rest else (k0, l) :: groupUpdate k a rest

/-- Group a record list by a key, preserving first-seen key order and
within-group record order (the `reduce`-into-object idiom of
`groupByDay`, line 218, and the per-name grouping, line 125). -/
def groupByKey {κ : Type} [DecidableEq κ] (key : AttendanceRecord → κ)
    (l : List AttendanceRecord) : List (κ × List AttendanceRecord) :=
  l.foldl (fun acc a => groupUpdate (key a) a acc) []

/-- `groupByDay` (lines 218-227): group by the date part of the
timestamp. -/
def groupByDay (records : List AttendanceRecord) :
    List (ℕ × List AttendanceRecord) :=
  groupByKey (fun r => r.fechaHora.day) records

/-- `getCompanyWorkdays` (lines 4-22): every date with at least one
punch from any employee that is a weekday inside the range. -/
def getCompanyWorkdays (allRecords : List AttendanceRecord)
    (startDate endDate : ℕ) : Finset ℕ :=
  allRecords.foldl
    (fun s r =>
      if ¬ isWeekendDay r.fechaHora.day ∧
          startDate ≤ r.fechaHora.day ∧ r.fechaHora.day ≤ endDate then
        insert r.fechaHora.day s
      else s)
    ∅

/-- The per-employee running totals of the aggregation loop in
`analyzeAttendance` (lines 143-148). -/
structure DayAcc where
  lateDays : ℕ
  lateMinutes : ℤ
  lateHours : ℚ
  overtimeHours : ℚ
  saturdayHours : ℚ
deriving DecidableEq

/-- The weekend-bucket hours of lines 160-165:
`(last punch - first punch) / 60`. -/
def satHours (recs : List AttendanceRecord) : ℚ :=
  match recs.head?, recs.getLast? with
  | some f, some l => ((diffMin l.fechaHora f.fechaHora : ℤ) : ℚ) / 60
  | _, _ => 0

/-- One iteration of the per-day loop of `analyzeAttendance`
(lines 150-179): skip out-of-range days, accumulate weekend hours for
weekend days, otherwise run the daily evaluator and accumulate. -/
def dayStep (startDate endDate : ℕ) (sched : Schedule) (isReg : Bool)
    (p : PreferencesConfig) (acc : DayAcc)
    (bucket : ℕ × List AttendanceRecord) : DayAcc :=
  if ¬ (startDate ≤ bucket.1 ∧ bucket.1 ≤ endDate) then acc
  else if isWeekendDay bucket.1 then
    if 2 ≤ bucket.2.length then
      { acc with saturdayHours := acc.saturdayHours + satHours bucket.2 }
    else acc
  else
    let r := analyzeDayRecords bucket.2 sched isReg p
    let acc1 :=
      if 0 < r.lateMinutes then
        { acc with
          lateDays := acc.lateDays + 1
          lateMinutes := acc.lateMinutes + r.lateMinutes
          lateHours := acc.lateHours + r.lateHours }
      else acc
    { acc1 with overtimeHours := acc1.overtimeHours + r.overtimeHours }

/-- The raw (pre-rounding) totals for one employee: duplicate-filter,
classify, group by day, then fold the per-day loop. -/
def employeeAcc (userRecords : List AttendanceRecord)
    (startDate endDate : ℕ) (p : PreferencesConfig) : DayAcc :=
  let filtered := filterDuplicateRecords userRecords p
  let isEarly := detectIsEarly filtered p
  let sched := if isEarly then p.earlySchedule else p.regularSchedule
  (groupByDay filtered).foldl (dayStep startDate endDate sched (!isEarly) p)
    { lateDays := 0, lateMinutes := 0, lateHours := 0,
      overtimeHours := 0, saturdayHours := 0 }

/-- JavaScript `Math.round`: round half toward positive infinity. -/
def jsRound (q : ℚ) : ℤ := ⌊q + 1/2⌋

/-- The `AnalysisResult` record produced per employee (lines 200-214). -/
structure AnalysisResult where
  name : String
  schedule : Schedule
  daysRegistered : ℕ
  absences : ℕ
  lateHours : ℚ
  lateDays : ℕ
  lateMinutes : ℤ
  overtimeHours : ℚ
  saturdayHours : ℚ
  totalHours : ℚ
  dailyRecords : List (ℕ × List AttendanceRecord)
deriving DecidableEq

/-- The per-employee set of in-range weekday dates with at least one
(filtered) record (lines 182-188). -/
def userWorkdaysOf (daily : List (ℕ × List AttendanceRecord))
    (startDate endDate : ℕ) : Finset ℕ :=
  daily.foldl
    (fun s kv =>
      if ¬ isWeekendDay kv.1 ∧ startDate ≤ kv.1 ∧ kv.1 ≤ endDate then
        insert kv.1 s
      else s)
    ∅

/-- The per-employee body of `analyzeAttendance` (lines 134-215). -/
def analyzeEmployee (companyWorkdays : Finset ℕ) (userName : String)
    (userRecords : List AttendanceRecord) (startDate endDate : ℕ)
    (p : PreferencesConfig) : AnalysisResult :=
  let filtered := filterDuplicateRecords userRecords p
  let isEarly := detectIsEarly filtered p
  let sched := if isEarly then p.earlySchedule else p.regularSchedule
  let daily := groupByDay filtered
  let acc := employeeAcc userRecords startDate endDate p
  let userWorkdays : Finset ℕ := userWorkdaysOf daily startDate endDate
  let totalAbsences := (companyWorkdays.filter fun d => d ∉ userWorkdays).card
  let roundedOvertimeHours : ℚ := (jsRound (acc.overtimeHours * 2) : ℚ) / 2
  let roundedSaturdayHours : ℚ := (jsRound (acc.saturdayHours * 2) : ℚ) / 2
  { name := userName
    schedule := sched
    daysRegistered :=
      (daily.filter fun kv => startDate ≤ kv.1 ∧ kv.1 ≤ endDate).length
    absences := totalAbsences
    lateHours := acc.lateHours
    lateDays := acc.lateDays
    lateMinutes := acc.lateMinutes
    overtimeHours := roundedOvertimeHours
    saturdayHours := roundedSaturdayHours
    totalHours := roundedOvertimeHours + roundedSaturdayHours
    dailyRecords := daily }

/-- `analyzeAttendance` (lines 115-216): compute the company workday set,
group the punches by employee name and produce one `AnalysisResult` per
employee. -/
def analyzeAttendance (records : List AttendanceRecord)
    (startDate endDate : ℕ)
    (p : PreferencesConfig) : List AnalysisResult :=
  let companyWorkdays := getCompanyWorkdays records startDate endDate
  (groupByKey (fun r => r.Nombre) records).map fun kv =>
    analyzeEmployee companyWorkdays kv.1 kv.2 startDate endDate p

/-- Example records for witnesses: three `In` punches 2 and 20 minutes
apart, given out of order. -/
def exR1 : AttendanceRecord :=
  { Nombre := "A", fechaHora := { day := 1, minute := 480 },
    tipo := RegType.In, operacion := some "In" }

def exR2 : AttendanceRecord :=
  { Nombre := "A", fechaHora := { day := 1, minute := 482 },
    tipo := RegType.In, operacion := some "In" }

def exR3 : AttendanceRecord :=
  { Nombre := "A", fechaHora := { day := 1, minute := 502 },
    tipo := RegType.In, operacion := some "In" }

def exC3 : List AttendanceRecord := [exR2, exR1, exR3]

/-- C3: the duplicate filter is idempotent, its output is sorted
ascending by timestamp and no longer than its input, and it keeps the
first (earliest) record unconditionally, keeping each later record iff it
differs from the last kept record by more than the duplicate window, or
its punch kind differs, or its operation tag differs (the `dedupFrom`
loop is exactly that rule). -/
theorem claim_C3_filter_algebra (l : List AttendanceRecord)
    (p : PreferencesConfig) :
    filterDuplicateRecords (filterDuplicateRecords l p) p =
        filterDuplicateRecords l p ∧
      List.Sorted sortLe (filterDuplicateRecords l p) ∧
      (filterDuplicateRecords l p).length ≤ l.length ∧
      ∀ r rs, sortRecords l = r :: rs →
        filterDuplicateRecords l p = r :: dedupFrom p r rs :=
  ⟨filterDuplicateRecords_idem l p, sorted_filterDuplicateRecords l p,
    length_filterDuplicateRecords l p,
    fun r rs h => filterDuplicateRecords_eq_cons l p r rs h⟩

/-- Witness for C3 at a concrete input: the sorted order is
`[exR1, exR2, exR3]` and the filter drops `exR2` (2 minutes after
`exR1`, same kind and operation) while keeping `exR3`. -/
theorem claim_C3_witness :
    (sortRecords exC3 = exR1 :: [exR2, exR3] ∧
      filterDuplicateRecords exC3 DEFAULT_PREFERENCES =
        exR1 :: dedupFrom DEFAULT_PREFERENCES exR1 [exR2, exR3]) ∧
      filterDuplicateRecords exC3 DEFAULT_PREFERENCES = [exR1, exR3] :=
  ⟨⟨by decide,
      (claim_C3_filter_algebra exC3 DEFAULT_PREFERENCES).2.2.2 exR1 [exR2, exR3]
        (by decide)⟩,
    by decide⟩

/-- A record with the given date, minute, kind and operation tag. -/
def mkRec (d : ℕ) (m : ℤ) (t : RegType) (op : Option String) :
    AttendanceRecord :=
  { Nombre := "E", fechaHora := { day := d, minute := m }, tipo := t,
    operacion := op }

/-- A full day with a lunch break: arrival, break out, break in,
departure. -/
def mk4 (d : ℕ) (a b1 b2 dep : ℤ) : List AttendanceRecord :=
  [ mkRec d a RegType.In (some "In"),
    mkRec d b1 RegType.Break (some "Out"),
    mkRec d b2 RegType.Break (some "In"),
    mkRec d dep RegType.Out (some "Out") ]

/-- A day whose break-in punch is missing. -/
def mk3 (d : ℕ) (a b1 dep : ℤ) : List AttendanceRecord :=
  [ mkRec d a RegType.In (some "In"),
    mkRec d b1 RegType.Break (some "Out"),
    mkRec d dep RegType.Out (some "Out") ]

lemma filtered_mk4 (p : PreferencesConfig) (d : ℕ) (a b1 b2 dep : ℤ)
    (h1 : a ≤ b1) (h2 : b1 ≤ b2) (h3 : b2 ≤ dep) :
    filterDuplicateRecords (mk4 d a b1 b2 dep) p = mk4 d a b1 b2 dep := by
  apply filterDuplicateRecords_eq_self
  · simp only [mk4, mkRec, List.sorted_cons, List.mem_cons, List.mem_singleton,
      List.not_mem_nil, List.sorted_nil, sortLe, Ts.absMin]
    simp
    omega
  · simp [mk4, mkRec, List.chain'_cons, keepRec]

lemma filtered_mk3 (p : PreferencesConfig) (d : ℕ) (a b1 dep : ℤ)
    (h1 : a ≤ b1) (h2 : b1 ≤ dep) :
    filterDuplicateRecords (mk3 d a b1 dep) p = mk3 d a b1 dep := by
  apply filterDuplicateRecords_eq_self
  · simp only [mk3, mkRec, List.sorted_cons, List.mem_cons, List.mem_singleton,
      List.not_mem_nil, List.sorted_nil, sortLe, Ts.absMin]
    simp
    omega
  · simp [mk3, mkRec, List.chain'_cons, keepRec]

lemma diffMin_same_day (d : ℕ) (x y : ℤ) :
    diffMin { day := d, minute := x } { day := d, minute := y } = x - y := by
  simp [diffMin, Ts.absMin]

set_option maxHeartbeats 2000000 in
lemma evalCore_mk4 (p : PreferencesConfig) (sched : Schedule) (b : Bool)
    (d : ℕ) (a b1 b2 dep : ℤ) :
    evalCore (mk4 d a b1 b2 dep) sched b p =
      { lateMinutes :=
          (if sched.startTime < a then a - sched.startTime else 0) +
            (if p.lunchDuration < b2 - b1 then b2 - b1 - p.lunchDuration else 0)
        overtimeHours :=
          if 480 ≤ dep - a - (b2 - b1) then
            (if b = true ∧ a < sched.startTime then
              (if a ≤ 7 * 60 + 5 then 1
                else if a ≤ 7 * 60 + 30 then 1/2 else 0)
            else 0) +
              (if sched.endTime ≤ dep then
                if sched.endTime + p.overtimeThresholds.fullHour ≤ dep then 1
                else if sched.endTime + p.overtimeThresholds.halfHour ≤ dep then 1/2
                else 0
              else 0)
          else 0
        lateHours :=
          (if sched.startTime < a then tierLate (a - sched.startTime) p else 0) +
            (if p.lunchDuration < b2 - b1 then
              tierLate (b2 - b1 - p.lunchDuration) p
            else 0) } := by
  have hhead : (mk4 d a b1 b2 dep).head? =
      some (mkRec d a RegType.In (some "In")) := rfl
  have hlast : (mk4 d a b1 b2 dep).getLast? =
      some (mkRec d dep RegType.Out (some "Out")) := rfl
  have hbOut : (mk4 d a b1 b2 dep).find? (fun r =>
      decide (r.tipo = RegType.Break ∧ r.operacion = some "Out")) =
      some (mkRec d b1 RegType.Break (some "Out")) := rfl
  have hbIn : (mk4 d a b1 b2 dep).find? (fun r =>
      decide (r.tipo = RegType.Break ∧ r.operacion = some "In")) =
      some (mkRec d b2 RegType.Break (some "In")) := rfl
  unfold evalCore
  rw [hhead, hlast, hbOut, hbIn]
  dsimp only [mkRec]
  rw [diffMin_same_day, diffMin_same_day]
  simp only [DayResult.mk.injEq]
  refine ⟨?_, ?_, ?_⟩
  · split_ifs <;> dsimp only <;> omega
  · split_ifs <;> first | rfl | omega | tauto | (norm_num; done) | (simp_all; done)
  · split_ifs <;> first | rfl | omega | tauto | (norm_num; done) | (simp_all; done)

set_option maxHeartbeats 2000000 in
lemma evalCore_mk3 (p : PreferencesConfig) (sched : Schedule) (b : Bool)
    (d : ℕ) (a b1 dep : ℤ) :
    evalCore (mk3 d a b1 dep) sched b p =
      { lateMinutes := if sched.startTime < a then a - sched.startTime else 0
        overtimeHours :=
          if 480 ≤ dep - a then
            (if b = true ∧ a < sched.startTime then
              (if a ≤ 7 * 60 + 5 then 1
                else if a ≤ 7 * 60 + 30 then 1/2 else 0)
            else 0) +
              (if sched.endTime ≤ dep then
                if sched.endTime + p.overtimeThresholds.fullHour ≤ dep then 1
                else if sched.endTime + p.overtimeThresholds.halfHour ≤ dep then 1/2
                else 0
              else 0)
          else 0
        lateHours :=
          if sched.startTime < a then tierLate (a - sched.startTime) p else 0 } := by
  have hhead : (mk3 d a b1 dep).head? =
      some (mkRec d a RegType.In (some "In")) := rfl
  have hlast : (mk3 d a b1 dep).getLast? =
      some (mkRec d dep RegType.Out (some "Out")) := rfl
  have hbOut : (mk3 d a b1 dep).find? (fun r =>
      decide (r.tipo = RegType.Break ∧ r.operacion = some "Out")) =
      some (mkRec d b1 RegType.Break (some "Out")) := rfl
  have hbIn : (mk3 d a b1 dep).find? (fun r =>
      decide (r.tipo = RegType.Break ∧ r.operacion = some "In")) = none := rfl
  unfold evalCore
  rw [hhead, hlast, hbOut, hbIn]
  dsimp only [mkRec]
  rw [diffMin_same_day]
  simp only [DayResult.mk.injEq]
  refine ⟨?_, ?_, ?_⟩
  · split_ifs <;> dsimp only <;> omega
  · split_ifs <;> first | rfl | omega | tauto | (norm_num; done) | (simp_all; done)
  · split_ifs <;> first | rfl | omega | tauto | (norm_num; done) | (simp_all; done)

set_option maxHeartbeats 1000000 in
lemma evalCore_single (p : PreferencesConfig) (sched : Schedule) (b : Bool)
    (d : ℕ) (m : ℤ) :
    evalCore [mkRec d m RegType.In (some "In")] sched b p =
      { lateMinutes := if sched.startTime < m then m - sched.startTime else 0
        overtimeHours := 0
        lateHours :=
          if sched.startTime < m then tierLate (m - sched.startTime) p else 0 } := by
  have hbOut : [mkRec d m RegType.In (some "In")].find? (fun r =>
      decide (r.tipo = RegType.Break ∧ r.operacion = some "Out")) = none := rfl
  have hbIn : [mkRec d m RegType.In (some "In")].find? (fun r =>
      decide (r.tipo = RegType.Break ∧ r.operacion = some "In")) = none := rfl
  unfold evalCore
  rw [List.head?_cons, List.getLast?_singleton, hbOut, hbIn]
  dsimp only [mkRec]
  rw [diffMin_same_day]
  simp only [DayResult.mk.injEq]
  refine ⟨?_, ?_, ?_⟩
  · split_ifs <;> dsimp only <;> omega
  · split_ifs <;> first | rfl | omega | tauto | (norm_num; done) | (simp_all; done)
  · split_ifs <;> first | rfl | omega | tauto | (norm_num; done) | (simp_all; done)

lemma filtered_single (p : PreferencesConfig) (r : AttendanceRecord) :
    filterDuplicateRecords [r] p = [r] := by
  apply filterDuplicateRecords_eq_self
  · simp [List.sorted_cons]
  · simp [List.chain'_cons]

lemma analyzeDayRecords_not_sat (records : List AttendanceRecord)
    (sched : Schedule) (b : Bool) (p : PreferencesConfig)
    (h : ∀ r, (filterDuplicateRecords records p).head? = some r →
      r.fechaHora.day % 7 ≠ 6) :
    analyzeDayRecords records sched b p =
      evalCore (filterDuplicateRecords records p) sched b p := by
  unfold analyzeDayRecords
  cases hh : (filterDuplicateRecords records p).head? with
  | none =>
      dsimp only
      rw [hh]
  | some r =>
      dsimp only
      rw [hh]
      exact if_neg (h r hh)

lemma analyzeDayRecords_single (p : PreferencesConfig) (sched : Schedule)
    (b : Bool) (d : ℕ) (m : ℤ) (hd : d % 7 ≠ 6) :
    analyzeDayRecords [mkRec d m RegType.In (some "In")] sched b p =
      { lateMinutes := if sched.startTime < m then m - sched.startTime else 0
        overtimeHours := 0
        lateHours :=
          if sched.startTime < m then tierLate (m - sched.startTime) p else 0 } := by
  rw [analyzeDayRecords_not_sat, filtered_single, evalCore_single]
  intro r hr
  rw [filtered_single] at hr
  simp only [List.head?_cons, Option.some.injEq] at hr
  subst hr
  simpa [mkRec] using hd

lemma analyzeDayRecords_mk4 (p : PreferencesConfig) (sched : Schedule)
    (b : Bool) (d : ℕ) (a b1 b2 dep : ℤ) (hd : d % 7 ≠ 6)
    (h1 : a ≤ b1) (h2 : b1 ≤ b2) (h3 : b2 ≤ dep) :
    analyzeDayRecords (mk4 d a b1 b2 dep) sched b p =
      evalCore (mk4 d a b1 b2 dep) sched b p := by
  rw [analyzeDayRecords_not_sat, filtered_mk4 p d a b1 b2 dep h1 h2 h3]
  intro r hr
  rw [filtered_mk4 p d a b1 b2 dep h1 h2 h3] at hr
  simp only [mk4, List.head?_cons, Option.some.injEq] at hr
  subst hr
  simpa [mkRec] using hd

lemma analyzeDayRecords_mk3 (p : PreferencesConfig) (sched : Schedule)
    (b : Bool) (d : ℕ) (a b1 dep : ℤ) (hd : d % 7 ≠ 6)
    (h1 : a ≤ b1) (h2 : b1 ≤ dep) :
    analyzeDayRecords (mk3 d a b1 dep) sched b p =
      evalCore (mk3 d a b1 dep) sched b p := by
  rw [analyzeDayRecords_not_sat, filtered_mk3 p d a b1 dep h1 h2]
  intro r hr
  rw [filtered_mk3 p d a b1 dep h1 h2] at hr
  simp only [mk3, List.head?_cons, Option.some.injEq] at hr
  subst hr
  simpa [mkRec] using hd

/-- C2: with positive thresholds `halfHour < fullHour`, an arrival punch
exactly `halfHour` minutes after scheduled start earns `lateHours = 0`,
one minute later `0.5`, exactly `fullHour` minutes late still `0.5`, and
one minute after that `1` (strict lower bounds, inclusive upper bounds),
for either schedule flag. -/
theorem claim_C2_late_threshold_boundaries (p : PreferencesConfig)
    (sched : Schedule) (b : Bool) (d : ℕ) (hd : d % 7 ≠ 6)
    (hpos : 0 < p.lateThresholds.halfHour)
    (hlt : p.lateThresholds.halfHour < p.lateThresholds.fullHour) :
    (analyzeDayRecords
        [mkRec d (sched.startTime + p.lateThresholds.halfHour)
          RegType.In (some "In")] sched b p).lateHours = 0 ∧
      (analyzeDayRecords
        [mkRec d (sched.startTime + p.lateThresholds.halfHour + 1)
          RegType.In (some "In")] sched b p).lateHours = 1/2 ∧
      (analyzeDayRecords
        [mkRec d (sched.startTime + p.lateThresholds.fullHour)
          RegType.In (some "In")] sched b p).lateHours = 1/2 ∧
      (analyzeDayRecords
        [mkRec d (sched.startTime + p.lateThresholds.fullHour + 1)
          RegType.In (some "In")] sched b p).lateHours = 1 := by
  refine ⟨?_, ?_, ?_, ?_⟩ <;>
    rw [analyzeDayRecords_single p sched b d _ hd] <;>
      dsimp only <;>
        rw [if_pos (show sched.startTime < _ by omega)] <;>
          unfold tierLate <;>
            split_ifs <;> first | rfl | (exfalso; omega)

/-- Witness for C2 at the default configuration, regular schedule, on a
Monday. -/
theorem claim_C2_witness :
    ((1 : ℕ) % 7 ≠ 6 ∧
        (0 : ℤ) < DEFAULT_PREFERENCES.lateThresholds.halfHour ∧
        DEFAULT_PREFERENCES.lateThresholds.halfHour <
          DEFAULT_PREFERENCES.lateThresholds.fullHour) ∧
      ((analyzeDayRecords
          [mkRec 1 (DEFAULT_PREFERENCES.regularSchedule.startTime +
              DEFAULT_PREFERENCES.lateThresholds.halfHour)
            RegType.In (some "In")] DEFAULT_PREFERENCES.regularSchedule true
          DEFAULT_PREFERENCES).lateHours = 0 ∧
        (analyzeDayRecords
          [mkRec 1 (DEFAULT_PREFERENCES.regularSchedule.startTime +
              DEFAULT_PREFERENCES.lateThresholds.halfHour + 1)
            RegType.In (some "In")] DEFAULT_PREFERENCES.regularSchedule true
          DEFAULT_PREFERENCES).lateHours = 1/2 ∧
        (analyzeDayRecords
          [mkRec 1 (DEFAULT_PREFERENCES.regularSchedule.startTime +
              DEFAULT_PREFERENCES.lateThresholds.fullHour)
            RegType.In (some "In")] DEFAULT_PREFERENCES.regularSchedule true
          DEFAULT_PREFERENCES).lateHours = 1/2 ∧
        (analyzeDayRecords
          [mkRec 1 (DEFAULT_PREFERENCES.regularSchedule.startTime +
              DEFAULT_PREFERENCES.lateThresholds.fullHour + 1)
            RegType.In (some "In")] DEFAULT_PREFERENCES.regularSchedule true
          DEFAULT_PREFERENCES).lateHours = 1) :=
  ⟨⟨by decide, by decide, by decide⟩,
    claim_C2_late_threshold_boundaries DEFAULT_PREFERENCES
      DEFAULT_PREFERENCES.regularSchedule true 1 (by decide) (by decide)
      (by decide)⟩

/-- C4: on a full day with a break pair, the regular schedule grants an
early-arrival overtime credit of 1 for arrival at or before 07:05, else
0.5 at or before 07:30, else 0, and the credit (together with any evening
credit) reaches `overtimeHours` only when worked minutes
(last − first − break) are at least 480; the early schedule never grants
an early-arrival credit. -/
theorem claim_C4_early_arrival_credit (p : PreferencesConfig)
    (sched : Schedule) (d : ℕ) (a b1 b2 dep : ℤ) (hd : d % 7 ≠ 6)
    (h1 : a ≤ b1) (h2 : b1 ≤ b2) (h3 : b2 ≤ dep)
    (ha : a < sched.startTime) :
    (analyzeDayRecords (mk4 d a b1 b2 dep) sched true p).overtimeHours =
        (if 480 ≤ dep - a - (b2 - b1) then
          (if a ≤ 7 * 60 + 5 then 1
            else if a ≤ 7 * 60 + 30 then 1/2 else 0) +
            (if sched.endTime ≤ dep then
              if sched.endTime + p.overtimeThresholds.fullHour ≤ dep then 1
              else if sched.endTime + p.overtimeThresholds.halfHour ≤ dep then 1/2
              else 0
            else 0)
        else 0) ∧
      (analyzeDayRecords (mk4 d a b1 b2 dep) sched false p).overtimeHours =
        (if 480 ≤ dep - a - (b2 - b1) then
          (if sched.endTime ≤ dep then
            if sched.endTime + p.overtimeThresholds.fullHour ≤ dep then 1
            else if sched.endTime + p.overtimeThresholds.halfHour ≤ dep then 1/2
            else 0
          else 0)
        else 0) := by
  constructor
  · rw [analyzeDayRecords_mk4 p sched true d a b1 b2 dep hd h1 h2 h3,
      evalCore_mk4]
    simp [ha]
  · rw [analyzeDayRecords_mk4 p sched false d a b1 b2 dep hd h1 h2 h3,
      evalCore_mk4]
    simp

/-- Witness for C4: arrival 07:00 (credit 1), lunch 12:00-13:00,
departure 17:00, 540 worked minutes, default regular schedule. -/
theorem claim_C4_witness :
    ((1 : ℕ) % 7 ≠ 6 ∧ (420 : ℤ) ≤ 720 ∧ (720 : ℤ) ≤ 780 ∧
        (780 : ℤ) ≤ 1020 ∧
        (420 : ℤ) < DEFAULT_PREFERENCES.regularSchedule.startTime) ∧
      ((analyzeDayRecords (mk4 1 420 720 780 1020)
          DEFAULT_PREFERENCES.regularSchedule true
          DEFAULT_PREFERENCES).overtimeHours =
        (if (480 : ℤ) ≤ 1020 - 420 - (780 - 720) then
          (if (420 : ℤ) ≤ 7 * 60 + 5 then 1
            else if (420 : ℤ) ≤ 7 * 60 + 30 then 1/2 else 0) +
            (if DEFAULT_PREFERENCES.regularSchedule.endTime ≤ 1020 then
              if DEFAULT_PREFERENCES.regularSchedule.endTime +
                  DEFAULT_PREFERENCES.overtimeThresholds.fullHour ≤ 1020 then 1
              else if DEFAULT_PREFERENCES.regularSchedule.endTime +
                  DEFAULT_PREFERENCES.overtimeThresholds.halfHour ≤ 1020 then 1/2
              else 0
            else 0)
        else 0) ∧
        (analyzeDayRecords (mk4 1 420 720 780 1020)
          DEFAULT_PREFERENCES.regularSchedule false
          DEFAULT_PREFERENCES).overtimeHours =
        (if (480 : ℤ) ≤ 1020 - 420 - (780 - 720) then
          (if DEFAULT_PREFERENCES.regularSchedule.endTime ≤ 1020 then
            if DEFAULT_PREFERENCES.regularSchedule.endTime +
                DEFAULT_PREFERENCES.overtimeThresholds.fullHour ≤ 1020 then 1
            else if DEFAULT_PREFERENCES.regularSchedule.endTime +
                DEFAULT_PREFERENCES.overtimeThresholds.halfHour ≤ 1020 then 1/2
            else 0
          else 0)
        else 0)) :=
  ⟨⟨by decide, by decide, by decide, by decide, by decide⟩,
    claim_C4_early_arrival_credit DEFAULT_PREFERENCES
      DEFAULT_PREFERENCES.regularSchedule 1 420 720 780 1020 (by decide)
      (by decide) (by decide) (by decide) (by decide)⟩

/-- C7: with a full Break-Out/Break-In pair, the minutes by which the
break exceeds the configured lunch duration are added to `lateMinutes`
and converted to `lateHours` through the same tier rule as arrival
lateness; with the Break-In punch missing, the lunch evaluation is
skipped and only the arrival contribution remains. -/
theorem claim_C7_lunch_overrun (p : PreferencesConfig) (sched : Schedule)
    (b : Bool) (d : ℕ) (a b1 b2 dep : ℤ) (hd : d % 7 ≠ 6)
    (h1 : a ≤ b1) (h2 : b1 ≤ b2) (h3 : b2 ≤ dep) :
    ((analyzeDayRecords (mk4 d a b1 b2 dep) sched b p).lateMinutes =
        (if sched.startTime < a then a - sched.startTime else 0) +
          (if p.lunchDuration < b2 - b1 then b2 - b1 - p.lunchDuration else 0) ∧
      (analyzeDayRecords (mk4 d a b1 b2 dep) sched b p).lateHours =
        (if sched.startTime < a then tierLate (a - sched.startTime) p else 0) +
          (if p.lunchDuration < b2 - b1 then
            tierLate (b2 - b1 - p.lunchDuration) p
          else 0)) ∧
      ((analyzeDayRecords (mk3 d a b1 dep) sched b p).lateMinutes =
        (if sched.startTime < a then a - sched.startTime else 0) ∧
      (analyzeDayRecords (mk3 d a b1 dep) sched b p).lateHours =
        (if sched.startTime < a then tierLate (a - sched.startTime) p else 0)) := by
  rw [analyzeDayRecords_mk4 p sched b d a b1 b2 dep hd h1 h2 h3,
    analyzeDayRecords_mk3 p sched b d a b1 dep hd h1 (le_trans h2 h3),
    evalCore_mk4, evalCore_mk3]
  exact ⟨⟨rfl, rfl⟩, rfl, rfl⟩

/-- Witness for C7: a 75-minute break against a 60-minute lunch, on-time
arrival, default configuration (excess 15 → lateHours 1/2); without the
Break-In punch there is no penalty. -/
theorem claim_C7_witness :
    ((1 : ℕ) % 7 ≠ 6 ∧ (480 : ℤ) ≤ 720 ∧ (720 : ℤ) ≤ 795 ∧
        (795 : ℤ) ≤ 1020) ∧
      (((analyzeDayRecords (mk4 1 480 720 795 1020)
          DEFAULT_PREFERENCES.regularSchedule true
          DEFAULT_PREFERENCES).lateMinutes =
        (if DEFAULT_PREFERENCES.regularSchedule.startTime < (480 : ℤ) then
            480 - DEFAULT_PREFERENCES.regularSchedule.startTime else 0) +
          (if DEFAULT_PREFERENCES.lunchDuration < (795 : ℤ) - 720 then
            795 - 720 - DEFAULT_PREFERENCES.lunchDuration else 0) ∧
      (analyzeDayRecords (mk4 1 480 720 795 1020)
          DEFAULT_PREFERENCES.regularSchedule true
          DEFAULT_PREFERENCES).lateHours =
        (if DEFAULT_PREFERENCES.regularSchedule.startTime < (480 : ℤ) then
            tierLate (480 - DEFAULT_PREFERENCES.regularSchedule.startTime)
              DEFAULT_PREFERENCES else 0) +
          (if DEFAULT_PREFERENCES.lunchDuration < (795 : ℤ) - 720 then
            tierLate (795 - 720 - DEFAULT_PREFERENCES.lunchDuration)
              DEFAULT_PREFERENCES
          else 0)) ∧
      ((analyzeDayRecords (mk3 1 480 720 1020)
          DEFAULT_PREFERENCES.regularSchedule true
          DEFAULT_PREFERENCES).lateMinutes =
        (if DEFAULT_PREFERENCES.regularSchedule.startTime < (480 : ℤ) then
            480 - DEFAULT_PREFERENCES.regularSchedule.startTime else 0) ∧
      (analyzeDayRecords (mk3 1 480 720 1020)
          DEFAULT_PREFERENCES.regularSchedule true
          DEFAULT_PREFERENCES).lateHours =
        (if DEFAULT_PREFERENCES.regularSchedule.startTime < (480 : ℤ) then
            tierLate (480 - DEFAULT_PREFERENCES.regularSchedule.startTime)
              DEFAULT_PREFERENCES else 0))) :=
  ⟨⟨by decide, by decide, by decide, by decide⟩,
    claim_C7_lunch_overrun DEFAULT_PREFERENCES
      DEFAULT_PREFERENCES.regularSchedule true 1 480 720 795 1020 (by decide)
      (by decide) (by decide) (by decide)⟩

/-- A plain day: one arrival and one departure punch. -/
def mk2 (d : ℕ) (a dep : ℤ) : List AttendanceRecord :=
  [ mkRec d a RegType.In (some "In"),
    mkRec d dep RegType.Out (some "Out") ]

lemma filtered_mk2 (p : PreferencesConfig) (d : ℕ) (a dep : ℤ)
    (h1 : a ≤ dep) :
    filterDuplicateRecords (mk2 d a dep) p = mk2 d a dep := by
  apply filterDuplicateRecords_eq_self
  · simp only [mk2, mkRec, List.sorted_cons, List.mem_cons, List.mem_singleton,
      List.not_mem_nil, List.sorted_nil, sortLe, Ts.absMin]
    simp
    omega
  · simp [mk2, mkRec, List.chain'_cons, keepRec]

set_option maxHeartbeats 1000000 in
lemma evalCore_mk2 (p : PreferencesConfig) (sched : Schedule) (b : Bool)
    (d : ℕ) (a dep : ℤ) :
    evalCore (mk2 d a dep) sched b p =
      { lateMinutes := if sched.startTime < a then a - sched.startTime else 0
        overtimeHours :=
          if 480 ≤ dep - a then
            (if b = true ∧ a < sched.startTime then
              (if a ≤ 7 * 60 + 5 then 1
                else if a ≤ 7 * 60 + 30 then 1/2 else 0)
            else 0) +
              (if sched.endTime ≤ dep then
                if sched.endTime + p.overtimeThresholds.fullHour ≤ dep then 1
                else if sched.endTime + p.overtimeThresholds.halfHour ≤ dep then 1/2
                else 0
              else 0)
          else 0
        lateHours :=
          if sched.startTime < a then tierLate (a - sched.startTime) p else 0 } := by
  have hhead : (mk2 d a dep).head? =
      some (mkRec d a RegType.In (some "In")) := rfl
  have hlast : (mk2 d a dep).getLast? =
      some (mkRec d dep RegType.Out (some "Out")) := rfl
  have hbOut : (mk2 d a dep).find? (fun r =>
      decide (r.tipo = RegType.Break ∧ r.operacion = some "Out")) = none := rfl
  have hbIn : (mk2 d a dep).find? (fun r =>
      decide (r.tipo = RegType.Break ∧ r.operacion = some "In")) = none := rfl
  unfold evalCore
  rw [hhead, hlast, hbOut, hbIn]
  dsimp only [mkRec]
  rw [diffMin_same_day]
  simp only [DayResult.mk.injEq]
  refine ⟨?_, ?_, ?_⟩
  · split_ifs <;> dsimp only <;> omega
  · split_ifs <;> first | rfl | omega | tauto | (norm_num; done) | (simp_all; done)
  · split_ifs <;> first | rfl | omega | tauto | (norm_num; done) | (simp_all; done)

lemma analyzeDayRecords_mk2 (p : PreferencesConfig) (sched : Schedule)
    (b : Bool) (d : ℕ) (a dep : ℤ) (hd : d % 7 ≠ 6) (h1 : a ≤ dep) :
    analyzeDayRecords (mk2 d a dep) sched b p =
      evalCore (mk2 d a dep) sched b p := by
  rw [analyzeDayRecords_not_sat, filtered_mk2 p d a dep h1]
  intro r hr
  rw [filtered_mk2 p d a dep h1] at hr
  simp only [mk2, List.head?_cons, Option.some.injEq] at hr
  subst hr
  simpa [mkRec] using hd

/-- Two punches on a Sunday (day 0): arrival 08:40, departure 18:00. -/
def exSunday : List AttendanceRecord := mk2 0 (8 * 60 + 40) (18 * 60)

/-- C6: a punch set whose earliest punch falls on a Saturday makes
`analyzeDayRecords` return all zeros unconditionally, and the per-day
aggregation step leaves the lateness and overtime accumulators of any
weekend bucket untouched (the daily evaluator is not consulted there). -/
theorem claim_C6_saturday_exclusion :
    (∀ (records : List AttendanceRecord) (sched : Schedule) (b : Bool)
        (p : PreferencesConfig) (r : AttendanceRecord)
        (rs : List AttendanceRecord),
      sortRecords records = r :: rs → r.fechaHora.day % 7 = 6 →
        analyzeDayRecords records sched b p =
          { lateMinutes := 0, overtimeHours := 0, lateHours := 0 }) ∧
      ∀ (s e : ℕ) (sched : Schedule) (b : Bool) (p : PreferencesConfig)
          (acc : DayAcc) (d : ℕ) (recs : List AttendanceRecord),
        isWeekendDay d →
          (dayStep s e sched b p acc (d, recs)).lateDays = acc.lateDays ∧
            (dayStep s e sched b p acc (d, recs)).lateMinutes = acc.lateMinutes ∧
            (dayStep s e sched b p acc (d, recs)).lateHours = acc.lateHours ∧
            (dayStep s e sched b p acc (d, recs)).overtimeHours =
              acc.overtimeHours := by
  constructor
  · intro records sched b p r rs hsort hsat
    unfold analyzeDayRecords
    rw [filterDuplicateRecords_eq_cons records p r rs hsort]
    dsimp only [List.head?_cons]
    exact if_pos hsat
  · intro s e sched b p acc d recs hw
    unfold dayStep
    split_ifs <;> simp_all

/-- Witness for C6: a Saturday (day 6) bucket evaluates to zeros, and a
weekend aggregation step keeps the lateness accumulators. -/
theorem claim_C6_witness :
    analyzeDayRecords [mkRec 6 520 RegType.In (some "In")]
        DEFAULT_PREFERENCES.regularSchedule true DEFAULT_PREFERENCES =
      { lateMinutes := 0, overtimeHours := 0, lateHours := 0 } ∧
      (dayStep 6 6 DEFAULT_PREFERENCES.regularSchedule true
          DEFAULT_PREFERENCES
          { lateDays := 0, lateMinutes := 0, lateHours := 0,
            overtimeHours := 0, saturdayHours := 0 }
          (6, [mkRec 6 520 RegType.In (some "In")])).lateMinutes = 0 :=
  ⟨claim_C6_saturday_exclusion.1 [mkRec 6 520 RegType.In (some "In")]
      DEFAULT_PREFERENCES.regularSchedule true DEFAULT_PREFERENCES
      (mkRec 6 520 RegType.In (some "In")) [] (by decide) (by decide),
    (claim_C6_saturday_exclusion.2 6 6 DEFAULT_PREFERENCES.regularSchedule
        true DEFAULT_PREFERENCES
        { lateDays := 0, lateMinutes := 0, lateHours := 0,
          overtimeHours := 0, saturdayHours := 0 }
        6 [mkRec 6 520 RegType.In (some "In")] (by decide)).2.1⟩

/-- C10: the weekend short-circuit of the daily evaluator tests only for
Saturday, so for a punch set whose earliest punch falls on a Sunday the
full evaluation body runs against the supplied schedule, and a direct
caller can receive nonzero lateness and overtime for a Sunday bucket
(arrival 08:40 and departure 18:00 on the default regular schedule yield
40 late minutes, 1 late hour and 1 overtime hour). -/
theorem claim_C10_sunday_evaluated :
    (∀ (records : List AttendanceRecord) (sched : Schedule) (b : Bool)
        (p : PreferencesConfig) (r : AttendanceRecord)
        (rs : List AttendanceRecord),
      sortRecords records = r :: rs → r.fechaHora.day % 7 = 0 →
        analyzeDayRecords records sched b p =
          evalCore (filterDuplicateRecords records p) sched b p) ∧
      analyzeDayRecords exSunday DEFAULT_PREFERENCES.regularSchedule true
          DEFAULT_PREFERENCES =
        { lateMinutes := 40, overtimeHours := 1, lateHours := 1 } := by
  constructor
  · intro records sched b p r rs hsort hsun
    apply analyzeDayRecords_not_sat
    intro r2 hr2
    rw [head?_filterDuplicateRecords, hsort] at hr2
    simp only [List.head?_cons, Option.some.injEq] at hr2
    subst hr2
    omega
  · rw [exSunday, analyzeDayRecords_mk2 _ _ _ _ _ _ (by decide) (by norm_num),
      evalCore_mk2]
    norm_num [DEFAULT_PREFERENCES, tierLate]

/-- Witness for C10: the Sunday example is evaluated by the full body,
not the Saturday short-circuit. -/
theorem claim_C10_witness :
    analyzeDayRecords exSunday DEFAULT_PREFERENCES.regularSchedule true
        DEFAULT_PREFERENCES =
      evalCore (filterDuplicateRecords exSunday DEFAULT_PREFERENCES)
        DEFAULT_PREFERENCES.regularSchedule true DEFAULT_PREFERENCES :=
  claim_C10_sunday_evaluated.1 exSunday
    DEFAULT_PREFERENCES.regularSchedule true DEFAULT_PREFERENCES
    (mkRec 0 (8 * 60 + 40) RegType.In (some "In"))
    [mkRec 0 (18 * 60) RegType.Out (some "Out")] (by decide) (by decide)

lemma closerTo_avgTime (l : List ℤ) (a b : ℤ) :
    closerTo (avgTime l) a b = true ↔
      l ≠ [] ∧ |meanQ l - (a : ℚ)| < |meanQ l - (b : ℚ)| := by
  by_cases hl : l = []
  · subst hl
    simp [avgTime, closerTo]
  · rw [avgTime, if_neg hl]
    simp [closerTo, hl]

/-- C8: the classifier selects the early schedule iff the employee has
weekday `In` punches whose mean minute-of-day is strictly closer to the
early schedule start than to the regular one, and weekday `Out` punches
whose mean is strictly closer to the early end than to the regular end;
in every other case, including an empty `In` or `Out` series (a `NaN`
mean in the source, modelled by `avgTime` returning `none`), the regular
schedule is returned. -/
theorem claim_C8_schedule_classifier (records : List AttendanceRecord)
    (p : PreferencesConfig) :
    (detectIsEarly records p = true ↔
        ((weekdayTimes RegType.In records ≠ [] ∧
          |meanQ (weekdayTimes RegType.In records) -
              (p.earlySchedule.startTime : ℚ)| <
            |meanQ (weekdayTimes RegType.In records) -
              (p.regularSchedule.startTime : ℚ)|) ∧
          (weekdayTimes RegType.Out records ≠ [] ∧
            |meanQ (weekdayTimes RegType.Out records) -
                (p.earlySchedule.endTime : ℚ)| <
              |meanQ (weekdayTimes RegType.Out records) -
                (p.regularSchedule.endTime : ℚ)|))) ∧
      detectSchedule records p =
        (if detectIsEarly records p = true then p.earlySchedule
          else p.regularSchedule) := by
  constructor
  · rw [detectIsEarly, Bool.and_eq_true, closerTo_avgTime, closerTo_avgTime]
  · rfl

/-- Two punches on a Sunday (day 7): 09:00 and 13:30. -/
def exC1 : List AttendanceRecord := mk2 7 (9 * 60) (13 * 60 + 30)

/-- Counterexample to C1 as stated: an input whose every punch falls on a
Sunday still produces `saturdayHours = 4.5` in `analyzeAttendance`; the
aggregator guards the accumulation with `isWeekend`, not with a Saturday
test, so a Sunday bucket with two punches does contribute. -/
theorem claim_C1_counterexample :
    (∀ r ∈ exC1, r.fechaHora.day % 7 = 0) ∧
      ((analyzeAttendance exC1 7 7 DEFAULT_PREFERENCES).map
        fun r => r.saturdayHours) = [9/2] := by
  constructor
  · decide
  · have hgroup : groupByKey (fun r => r.Nombre) exC1 = [("E", exC1)] := by
      decide
    have hfilter : filterDuplicateRecords exC1 DEFAULT_PREFERENCES = exC1 := by
      decide
    have hdetect : detectIsEarly exC1 DEFAULT_PREFERENCES = false := by decide
    have hday : groupByDay exC1 = [(7, exC1)] := by decide
    have hsat : satHours exC1 = 9/2 := by
      norm_num [satHours, exC1, mk2, mkRec, diffMin, Ts.absMin]
    have hacc : (employeeAcc exC1 7 7 DEFAULT_PREFERENCES).saturdayHours =
        9/2 := by
      rw [employeeAcc]
      simp only [hfilter, hdetect, hday]
      have hlen : exC1.length = 2 := by decide
      rw [List.foldl_cons, List.foldl_nil, dayStep]
      norm_num [isWeekendDay, hlen, hsat]
    have hround : (jsRound ((9:ℚ)/2 * 2) : ℚ) / 2 = 9/2 := by
      norm_num [jsRound]
    rw [analyzeAttendance]
    simp only [hgroup, List.map_cons, List.map_nil, List.cons.injEq, and_true]
    show (jsRound ((employeeAcc exC1 7 7 DEFAULT_PREFERENCES).saturdayHours * 2) : ℚ) / 2 = 9/2
    rw [hacc, hround]

/-- C1 (amended): in the aggregation path every in-range *weekend*
bucket — Saturday or Sunday alike — adds `(last punch − first punch)/60`
hours to `saturdayHours` exactly when it holds at least two punches, and
leaves the lateness accumulators untouched; non-weekend buckets never
touch `saturdayHours`. -/
theorem claim_C1_weekend_hours_amended (s e : ℕ) (sched : Schedule)
    (b : Bool) (p : PreferencesConfig) (acc : DayAcc) (d : ℕ)
    (recs : List AttendanceRecord) (hs : s ≤ d) (he : d ≤ e)
    (hw : isWeekendDay d) :
    dayStep s e sched b p acc (d, recs) =
        { acc with saturdayHours :=
            acc.saturdayHours +
              (if 2 ≤ recs.length then satHours recs else 0) } ∧
      ∀ (acc2 : DayAcc) (d2 : ℕ) (recs2 : List AttendanceRecord),
        ¬ isWeekendDay d2 →
          (dayStep s e sched b p acc2 (d2, recs2)).saturdayHours =
            acc2.saturdayHours := by
  constructor
  · unfold dayStep
    dsimp only
    rw [if_neg (not_not_intro ⟨hs, he⟩), if_pos hw]
    by_cases hlen : 2 ≤ recs.length
    · rw [if_pos hlen, if_pos hlen]
    · rw [if_neg hlen, if_neg hlen]
      rcases acc with ⟨l1, l2, l3, l4, l5⟩
      simp
  · intro acc2 d2 recs2 hw2
    unfold dayStep
    dsimp only
    split_ifs <;> simp_all

/-- Witness for C1 (amended): a Sunday bucket with two punches and a
Monday bucket, at the default configuration. -/
theorem claim_C1_witness :
    ((7 : ℕ) ≤ 7 ∧ (7 : ℕ) ≤ 7 ∧ isWeekendDay 7) ∧
      dayStep 7 7 DEFAULT_PREFERENCES.regularSchedule true
          DEFAULT_PREFERENCES
          { lateDays := 0, lateMinutes := 0, lateHours := 0,
            overtimeHours := 0, saturdayHours := 0 } (7, exC1) =
        { lateDays := 0, lateMinutes := 0, lateHours := 0,
          overtimeHours := 0,
          saturdayHours :=
            0 + (if 2 ≤ exC1.length then satHours exC1 else 0) } :=
  ⟨⟨by decide, by decide, by decide⟩,
    (claim_C1_weekend_hours_amended 7 7
        DEFAULT_PREFERENCES.regularSchedule true DEFAULT_PREFERENCES
        { lateDays := 0, lateMinutes := 0, lateHours := 0,
          overtimeHours := 0, saturdayHours := 0 } 7 exC1 (by decide)
        (by decide) (by decide)).1⟩

lemma mem_foldl_insert {X : Type} (key : X → ℕ) (P : X → Prop)
    [DecidablePred P] :
    ∀ (l : List X) (init : Finset ℕ) (d : ℕ),
      d ∈ l.foldl (fun s x => if P x then insert (key x) s else s) init ↔
        d ∈ init ∨ ∃ x ∈ l, key x = d ∧ P x := by
  intro l
  induction l with
  | nil => intro init d; simp
  | cons x xs ih =>
      intro init d
      rw [List.foldl_cons, ih]
      by_cases hP : P x
      · rw [if_pos hP]
        constructor
        · rintro (h | ⟨y, hy, hk, hPy⟩)
          · rcases Finset.mem_insert.mp h with h | h
            · exact Or.inr ⟨x, List.mem_cons_self x xs, h.symm, hP⟩
            · exact Or.inl h
          · exact Or.inr ⟨y, List.mem_cons_of_mem x hy, hk, hPy⟩
        · rintro (h | ⟨y, hy, hk, hPy⟩)
          · exact Or.inl (Finset.mem_insert_of_mem h)
          · rcases List.mem_cons.mp hy with rfl | hy2
            · exact Or.inl (Finset.mem_insert.mpr (Or.inl hk.symm))
            · exact Or.inr ⟨y, hy2, hk, hPy⟩
      · rw [if_neg hP]
        constructor
        · rintro (h | ⟨y, hy, hk, hPy⟩)
          · exact Or.inl h
          · exact Or.inr ⟨y, List.mem_cons_of_mem x hy, hk, hPy⟩
        · rintro (h | ⟨y, hy, hk, hPy⟩)
          · exact Or.inl h
          · rcases List.mem_cons.mp hy with rfl | hy2
            · exact absurd hPy hP
            · exact Or.inr ⟨y, hy2, hk, hPy⟩

lemma mem_userWorkdaysOf (daily : List (ℕ × List AttendanceRecord))
    (a b d : ℕ) :
    d ∈ userWorkdaysOf daily a b ↔
      ∃ kv ∈ daily, kv.1 = d ∧ ¬ isWeekendDay kv.1 ∧ a ≤ kv.1 ∧ kv.1 ≤ b := by
  rw [userWorkdaysOf]
  have h := mem_foldl_insert (fun kv : ℕ × List AttendanceRecord => kv.1)
    (fun kv => ¬ isWeekendDay kv.1 ∧ a ≤ kv.1 ∧ kv.1 ≤ b) daily ∅ d
  simp only [Finset.not_mem_empty, false_or] at h
  exact h

lemma mem_getCompanyWorkdays (records : List AttendanceRecord) (a b d : ℕ) :
    d ∈ getCompanyWorkdays records a b ↔
      ∃ r ∈ records, r.fechaHora.day = d ∧ ¬ isWeekendDay r.fechaHora.day ∧
        a ≤ r.fechaHora.day ∧ r.fechaHora.day ≤ b := by
  rw [getCompanyWorkdays]
  have h := mem_foldl_insert (fun r : AttendanceRecord => r.fechaHora.day)
    (fun r => ¬ isWeekendDay r.fechaHora.day ∧ a ≤ r.fechaHora.day ∧
      r.fechaHora.day ≤ b) records ∅ d
  simp only [Finset.not_mem_empty, false_or] at h
  exact h

lemma groupUpdate_keys {κ : Type} [DecidableEq κ] (k0 : κ)
    (a : AttendanceRecord) (k : κ) :
    ∀ acc : List (κ × List AttendanceRecord),
      ((∃ kv ∈ groupUpdate k0 a acc, kv.1 = k) ↔
        (∃ kv ∈ acc, kv.1 = k) ∨ k0 = k) := by
  intro acc
  induction acc with
  | nil => simp [groupUpdate]
  | cons hd tl ih =>
      obtain ⟨k1, l1⟩ := hd
      by_cases hk : k0 = k1
      · subst hk
        rw [groupUpdate, if_pos rfl]
        constructor
        · rintro ⟨kv, hkv, hkvd⟩
          rcases List.mem_cons.mp hkv with rfl | h
          · exact Or.inr hkvd
          · exact Or.inl ⟨kv, List.mem_cons_of_mem _ h, hkvd⟩
        · rintro (⟨kv, hkv, hkvd⟩ | hk0)
          · rcases List.mem_cons.mp hkv with rfl | h
            · exact ⟨(k0, l1 ++ [a]), List.mem_cons_self _ _, hkvd⟩
            · exact ⟨kv, List.mem_cons_of_mem _ h, hkvd⟩
          · exact ⟨(k0, l1 ++ [a]), List.mem_cons_self _ _, hk0⟩
      · rw [groupUpdate, if_neg hk]
        constructor
        · rintro ⟨kv, hkv, hkvd⟩
          rcases List.mem_cons.mp hkv with rfl | h
          · exact Or.inl ⟨(k1, l1), List.mem_cons_self _ _, hkvd⟩
          · rcases ih.mp ⟨kv, h, hkvd⟩ with ⟨kv2, hkv2, hkvd2⟩ | hk0
            · exact Or.inl ⟨kv2, List.mem_cons_of_mem _ hkv2, hkvd2⟩
            · exact Or.inr hk0
        · rintro (⟨kv, hkv, hkvd⟩ | hk0)
          · rcases List.mem_cons.mp hkv with rfl | h
            · exact ⟨(k1, l1), List.mem_cons_self _ _, hkvd⟩
            · obtain ⟨kv2, h2, hd2⟩ := ih.mpr (Or.inl ⟨kv, h, hkvd⟩)
              exact ⟨kv2, List.mem_cons_of_mem _ h2, hd2⟩
          · obtain ⟨kv2, h2, hd2⟩ := ih.mpr (Or.inr hk0)
            exact ⟨kv2, List.mem_cons_of_mem _ h2, hd2⟩

lemma groupByKey_keys_aux {κ : Type} [DecidableEq κ]
    (key : AttendanceRecord → κ) (k : κ) :
    ∀ (l : List AttendanceRecord) (acc : List (κ × List AttendanceRecord)),
      ((∃ kv ∈ l.foldl (fun acc a => groupUpdate (key a) a acc) acc, kv.1 = k) ↔
        (∃ kv ∈ acc, kv.1 = k) ∨ ∃ a ∈ l, key a = k) := by
  intro l
  induction l with
  | nil => intro acc; simp
  | cons x xs ih =>
      intro acc
      rw [List.foldl_cons, ih, groupUpdate_keys]
      constructor
      · rintro ((h | hx) | hxs)
        · exact Or.inl h
        · exact Or.inr ⟨x, List.mem_cons_self _ _, hx⟩
        · obtain ⟨a2, ha2, hk2⟩ := hxs
          exact Or.inr ⟨a2, List.mem_cons_of_mem _ ha2, hk2⟩
      · rintro (h | ⟨a2, ha2, hk2⟩)
        · exact Or.inl (Or.inl h)
        · rcases List.mem_cons.mp ha2 with rfl | h2
          · exact Or.inl (Or.inr hk2)
          · exact Or.inr ⟨a2, h2, hk2⟩

lemma groupByKey_keys {κ : Type} [DecidableEq κ] (key : AttendanceRecord → κ)
    (l : List AttendanceRecord) (k : κ) :
    (∃ kv ∈ groupByKey key l, kv.1 = k) ↔ ∃ a ∈ l, key a = k := by
  rw [groupByKey]
  have h := groupByKey_keys_aux key k l []
  simpa using h

lemma absences_characterization (records : List AttendanceRecord)
    (s e : ℕ) (p : PreferencesConfig) (n : String)
    (urs : List AttendanceRecord) :
    (analyzeEmployee (getCompanyWorkdays records s e) n urs s e p).absences =
      ((getCompanyWorkdays records s e).filter fun d =>
        ∀ r ∈ filterDuplicateRecords urs p, r.fechaHora.day ≠ d).card := by
  show ((getCompanyWorkdays records s e).filter fun d =>
      d ∉ userWorkdaysOf (groupByDay (filterDuplicateRecords urs p)) s e).card = _
  congr 1
  apply Finset.filter_congr
  intro d hd
  obtain ⟨r0, hr0mem, hr0d, hw0, ha0, hb0⟩ :=
    (mem_getCompanyWorkdays records s e d).mp hd
  have hprops : ¬ isWeekendDay d ∧ s ≤ d ∧ d ≤ e := by
    rw [← hr0d]
    exact ⟨hw0, ha0, hb0⟩
  rw [mem_userWorkdaysOf]
  constructor
  · intro hne r hr hrd
    apply hne
    obtain ⟨kv, hkv, hkvd⟩ :=
      (groupByKey_keys (fun r => r.fechaHora.day)
        (filterDuplicateRecords urs p) d).mpr ⟨r, hr, hrd⟩
    refine ⟨kv, hkv, hkvd, ?_⟩
    rw [hkvd]
    exact hprops
  · rintro hall ⟨kv, hkv, hkvd, _⟩
    obtain ⟨r, hr, hrd⟩ :=
      (groupByKey_keys (fun r => r.fechaHora.day)
        (filterDuplicateRecords urs p) d).mp ⟨kv, hkv, hkvd⟩
    exact hall r hr hrd

/-- An employee punching Monday 23:58 and Tuesday 00:00: the second punch
is 2 minutes after the first, same kind and operation, so the duplicate
filter erases the Tuesday record. -/
def exC5 : List AttendanceRecord :=
  [ mkRec 1 (23 * 60 + 58) RegType.In (some "In"),
    mkRec 2 0 RegType.In (some "In") ]

/-- Counterexample to C5 as stated: the employee has a raw punch on every
company workday (Monday and Tuesday are both company workdays here, and
both stem only from this employee's own punches), yet `absences = 1`,
because the Tuesday punch is removed by the duplicate filter before user
workdays are collected. -/
theorem claim_C5_counterexample :
    ((analyzeAttendance exC5 1 2 DEFAULT_PREFERENCES).map
        fun r => r.absences) = [1] ∧
      ∀ d ∈ getCompanyWorkdays exC5 1 2, ∃ r ∈ exC5, r.fechaHora.day = d := by
  constructor
  · decide
  · decide

/-- C5 (amended): for every employee of `analyzeAttendance`,
`absences <= |companyWorkdaySet|`; `absences` counts exactly the company
workdays on which the employee has no record *surviving the duplicate
filter*; hence `absences = 0` whenever the employee has a
filter-surviving record on every company workday.  (The stronger
property over raw records fails: the filter can erase all of an
employee's punches on a day, so even a company workday derived only from
this employee's own punches can be counted as an absence.) -/
theorem claim_C5_absence_invariant (records : List AttendanceRecord)
    (s e : ℕ) (p : PreferencesConfig) (n : String)
    (urs : List AttendanceRecord)
    (hmem : (n, urs) ∈ groupByKey (fun r => r.Nombre) records) :
    analyzeEmployee (getCompanyWorkdays records s e) n urs s e p ∈
        analyzeAttendance records s e p ∧
      (analyzeEmployee (getCompanyWorkdays records s e) n urs s e p).absences ≤
        (getCompanyWorkdays records s e).card ∧
      (analyzeEmployee (getCompanyWorkdays records s e) n urs s e p).absences =
        ((getCompanyWorkdays records s e).filter fun d =>
          ∀ r ∈ filterDuplicateRecords urs p, r.fechaHora.day ≠ d).card ∧
      ((∀ d ∈ getCompanyWorkdays records s e,
          ∃ r ∈ filterDuplicateRecords urs p, r.fechaHora.day = d) →
        (analyzeEmployee (getCompanyWorkdays records s e) n urs s e p).absences =
          0) := by
  refine ⟨?_, ?_, absences_characterization records s e p n urs, ?_⟩
  · unfold analyzeAttendance
    exact List.mem_map_of_mem _ hmem
  · exact Finset.card_filter_le _ _
  · intro hcov
    rw [absences_characterization records s e p n urs]
    rw [Finset.card_eq_zero, Finset.filter_eq_empty_iff]
    intro d hd
    obtain ⟨r, hr, hrd⟩ := hcov d hd
    intro hall
    exact hall r hr hrd

/-- Witness for C5 at the counterexample input (the amended invariant
holds there: absences equals the count of company workdays with no
surviving record, namely Tuesday). -/
theorem claim_C5_witness :
    analyzeEmployee (getCompanyWorkdays exC5 1 2) "E" exC5 1 2
          DEFAULT_PREFERENCES ∈
        analyzeAttendance exC5 1 2 DEFAULT_PREFERENCES ∧
      (analyzeEmployee (getCompanyWorkdays exC5 1 2) "E" exC5 1 2
          DEFAULT_PREFERENCES).absences ≤ (getCompanyWorkdays exC5 1 2).card ∧
      (analyzeEmployee (getCompanyWorkdays exC5 1 2) "E" exC5 1 2
          DEFAULT_PREFERENCES).absences =
        ((getCompanyWorkdays exC5 1 2).filter fun d =>
          ∀ r ∈ filterDuplicateRecords exC5 DEFAULT_PREFERENCES,
            r.fechaHora.day ≠ d).card ∧
      ((∀ d ∈ getCompanyWorkdays exC5 1 2,
          ∃ r ∈ filterDuplicateRecords exC5 DEFAULT_PREFERENCES,
            r.fechaHora.day = d) →
        (analyzeEmployee (getCompanyWorkdays exC5 1 2) "E" exC5 1 2
          DEFAULT_PREFERENCES).absences = 0) :=
  claim_C5_absence_invariant exC5 1 2 DEFAULT_PREFERENCES "E" exC5 (by decide)

/-- C9: every result of `analyzeAttendance` carries `overtimeHours` and
`saturdayHours` that are the raw accumulated totals rounded to the
nearest half (round-half-up on the doubled value, then halved) — in
particular both are integer multiples of one half — `totalHours` is
their sum, and `lateHours` is the unrounded accumulated total. -/
theorem claim_C9_rounding (records : List AttendanceRecord) (s e : ℕ)
    (p : PreferencesConfig) (n : String) (urs : List AttendanceRecord)
    (hmem : (n, urs) ∈ groupByKey (fun r => r.Nombre) records) :
    analyzeEmployee (getCompanyWorkdays records s e) n urs s e p ∈
        analyzeAttendance records s e p ∧
      (analyzeEmployee (getCompanyWorkdays records s e) n urs s e p).overtimeHours =
        (jsRound ((employeeAcc urs s e p).overtimeHours * 2) : ℚ) / 2 ∧
      (analyzeEmployee (getCompanyWorkdays records s e) n urs s e p).saturdayHours =
        (jsRound ((employeeAcc urs s e p).saturdayHours * 2) : ℚ) / 2 ∧
      (∃ k : ℤ,
        (analyzeEmployee (getCompanyWorkdays records s e) n urs s e p).overtimeHours =
          (k : ℚ) / 2) ∧
      (∃ k : ℤ,
        (analyzeEmployee (getCompanyWorkdays records s e) n urs s e p).saturdayHours =
          (k : ℚ) / 2) ∧
      (analyzeEmployee (getCompanyWorkdays records s e) n urs s e p).totalHours =
        (analyzeEmployee (getCompanyWorkdays records s e) n urs s e p).overtimeHours +
          (analyzeEmployee (getCompanyWorkdays records s e) n urs s e p).saturdayHours ∧
      (analyzeEmployee (getCompanyWorkdays records s e) n urs s e p).lateHours =
        (employeeAcc urs s e p).lateHours := by
  refine ⟨?_, rfl, rfl,
    ⟨jsRound ((employeeAcc urs s e p).overtimeHours * 2), rfl⟩,
    ⟨jsRound ((employeeAcc urs s e p).saturdayHours * 2), rfl⟩, rfl, rfl⟩
  unfold analyzeAttendance
  exact List.mem_map_of_mem _ hmem

/-- Witness for C9 at the two-Sunday-punch input. -/
theorem claim_C9_witness :
    analyzeEmployee (getCompanyWorkdays exC1 7 7) "E" exC1 7 7
          DEFAULT_PREFERENCES ∈
        analyzeAttendance exC1 7 7 DEFAULT_PREFERENCES ∧
      (analyzeEmployee (getCompanyWorkdays exC1 7 7) "E" exC1 7 7
          DEFAULT_PREFERENCES).overtimeHours =
        (jsRound ((employeeAcc exC1 7 7 DEFAULT_PREFERENCES).overtimeHours * 2) : ℚ) / 2 ∧
      (analyzeEmployee (getCompanyWorkdays exC1 7 7) "E" exC1 7 7
          DEFAULT_PREFERENCES).saturdayHours =
        (jsRound ((employeeAcc exC1 7 7 DEFAULT_PREFERENCES).saturdayHours * 2) : ℚ) / 2 ∧
      (∃ k : ℤ,
        (analyzeEmployee (getCompanyWorkdays exC1 7 7) "E" exC1 7 7
          DEFAULT_PREFERENCES).overtimeHours = (k : ℚ) / 2) ∧
      (∃ k : ℤ,
        (analyzeEmployee (getCompanyWorkdays exC1 7 7) "E" exC1 7 7
          DEFAULT_PREFERENCES).saturdayHours = (k : ℚ) / 2) ∧
      (analyzeEmployee (getCompanyWorkdays exC1 7 7) "E" exC1 7 7
          DEFAULT_PREFERENCES).totalHours =
        (analyzeEmployee (getCompanyWorkdays exC1 7 7) "E" exC1 7 7
          DEFAULT_PREFERENCES).overtimeHours +
          (analyzeEmployee (getCompanyWorkdays exC1 7 7) "E" exC1 7 7
            DEFAULT_PREFERENCES).saturdayHours ∧
      (analyzeEmployee (getCompanyWorkdays exC1 7 7) "E" exC1 7 7
          DEFAULT_PREFERENCES).lateHours =
        (employeeAcc exC1 7 7 DEFAULT_PREFERENCES).lateHours :=
  claim_C9_rounding exC1 7 7 DEFAULT_PREFERENCES "E" exC1 (by decide)
